import Mathlib

/-!
Shallow embedding of the presentation layer of the `knack` repository:
the output-formatting engine in `src/clicore/output.py` and the help
model in `src/knack/help.py`.  Python values are modelled by the
inductive type `Value`; Python string primitives (code-point
lexicographic comparison, `sorted`, `str.strip`, `str.lower`, `%06d`
formatting) are modelled by executable helpers in the prelude below.
-/

section PyPrelude

/-- The characters Python's `str.strip` removes (ASCII whitespace). -/
def pySpace (c : Char) : Bool :=
  c = ' ' || c = '\t' || c = '\n' || c = '\x0d' || c.val = 11 || c.val = 12

/-- Python `str.strip()`: drop whitespace from both ends. -/
def pyStrip (s : String) : String :=
  String.mk (((s.data.dropWhile pySpace).reverse.dropWhile pySpace).reverse)

/-- Python `str.lower()` (ASCII-adequate). -/
def pyLower (s : String) : String :=
  String.mk (s.data.map Char.toLower)

/-- Python string `<` : lexicographic comparison by code point. -/
def lexLt : List Char → List Char → Bool
  | [], [] => false
  | [], _ :: _ => true
  | _ :: _, [] => false
  | a :: as, b :: bs => if a < b then true else if b < a then false else lexLt as bs

def strLt (a b : String) : Bool := lexLt a.data b.data

def strLe (a b : String) : Bool := !(strLt b a)

/-- Insert into a sorted list (helper for `pySorted`). -/
def pyInsert {α : Type} (le : α → α → Bool) (a : α) : List α → List α
  | [] => [a]
  | b :: bs => if le a b then a :: b :: bs else b :: pyInsert le a bs

/-- Python `sorted` with comparison `le`.  Python's sort is a stable
sort for a total order; on the lists this development sorts (distinct
dictionary keys) every correct sort agrees, so insertion sort is an
adequate executable model. -/
def pySorted {α : Type} (le : α → α → Bool) : List α → List α
  | [] => []
  | a :: as => pyInsert le a (pySorted le as)

/-- Zero-padded base-10 digits, most significant first (`k` digits). -/
def padDigits : Nat → Nat → List Char
  | 0, _ => []
  | k + 1, n => Nat.digitChar (n / 10 ^ k) :: padDigits k (n % 10 ^ k)

/-- Python `"%06d" % n`: `n` zero-padded to (at least) six digits.  For
`n < 10^6` this is the six-digit base-10 rendering; larger numbers
print in full. -/
def pad6 (n : Nat) : String :=
  if n < 10 ^ 6 then String.mk (padDigits 6 n) else toString n

end PyPrelude

section PyValue

/-- A Python value as the formatting engine sees it.  `vdict` is a
plain `dict` (per-dict insertion order recorded, but treated as
unordered by the TSV formatter); `vodict` is a `collections.OrderedDict`
(an instance of `dict` whose order is deterministic). -/
inductive Value where
  | vnone : Value
  | vbool (b : Bool) : Value
  | vint (n : Int) : Value
  | vstr (s : String) : Value
  | vlist (elems : List Value) : Value
  | vdict (entries : List (String × Value)) : Value
  | vodict (entries : List (String × Value)) : Value
  | vset (elems : List Value) : Value

/-- Python truthiness (`if item[k]:` etc.). -/
def truthy : Value → Bool
  | .vnone => false
  | .vbool b => b
  | .vint n => n != 0
  | .vstr s => s != ""
  | .vlist xs => !xs.isEmpty
  | .vdict es => !es.isEmpty
  | .vodict es => !es.isEmpty
  | .vset xs => !xs.isEmpty

/-- `isinstance(v, dict)` (an `OrderedDict` is a `dict`). -/
def isDict : Value → Bool
  | .vdict _ | .vodict _ => true
  | _ => false

/-- `isinstance(v, list)`. -/
def isList : Value → Bool
  | .vlist _ => true
  | _ => false

/-- `isinstance(v, set)`. -/
def isSet : Value → Bool
  | .vset _ => true
  | _ => false

/-- Python `str()` for the values the formatters pass to it (scalars).
Containers are intercepted before `str()` is reached in the source;
their rendering here is a placeholder no theorem depends on. -/
def pyStr : Value → String
  | .vnone => "None"
  | .vbool true => "True"
  | .vbool false => "False"
  | .vint n => toString n
  | .vstr s => s
  | .vlist _ => "<list>"
  | .vdict _ => "<dict>"
  | .vodict _ => "<dict>"
  | .vset _ => "<set>"

/-- First-match association lookup: Python `d[k]` on the entry list of
a dict (whose keys are unique). -/
def assocFind (es : List (String × Value)) (k : String) : Option Value :=
  match es with
  | [] => none
  | (k', v) :: rest => if k' = k then some v else assocFind rest k

end PyValue

section ClicoreOutput

/-- `clicore.output.CommandResultItem`: the result envelope. -/
structure CommandResultItem where
  result : Value
  table_transformer : Option (Value → Value)
  is_query_active : Bool

namespace TsvOutput

/-- `_TsvOutput._dump_obj`: one cell.  A list contributes its length,
a dict an empty cell, a string itself, anything else `str(data)`. -/
def dump_obj : Value → String
  | .vlist xs => toString xs.length
  | .vdict _ => ""
  | .vodict _ => ""
  | .vstr s => s
  | v => pyStr v

/-- `sorted(data.items())`: a dict's items sorted by key (keys of a
Python dict are unique, so comparison never reaches the values). -/
def sortedItems (es : List (String × Value)) : List (String × Value) :=
  pySorted (fun p q => strLe p.1 q.1) es

/-- `_TsvOutput._dump_row`: one record, one line.  An `OrderedDict`
emits its values in insertion order; a plain dict sorted by key; a
list its elements in order; a bare boolean `str(data).lower()`;
anything else through `_dump_obj`.  A trailing newline is appended. -/
def dump_row (data : Value) : String :=
  (match data with
   | .vodict es => String.intercalate "\t" (es.map (fun p => dump_obj p.2))
   | .vdict es => String.intercalate "\t" ((sortedItems es).map (fun p => dump_obj p.2))
   | .vlist xs => String.intercalate "\t" (xs.map dump_obj)
   | .vbool b => dump_obj (.vstr (pyLower (pyStr (.vbool b))))
   | v => dump_obj v) ++ "\n"

/-- `_TsvOutput.dump`: concatenate the rows. -/
def dump (data : List Value) : String :=
  String.join (data.map dump_row)

end TsvOutput

/-- `clicore.output._format_tsv`: wrap a non-list result in a
singleton list and dump. -/
def format_tsv (obj : CommandResultItem) : String :=
  let result_list := match obj.result with
    | .vlist xs => xs
    | v => [v]
  TsvOutput.dump result_list

namespace TableOutput

/-- `_TableOutput.SKIP_KEYS`. -/
def SKIP_KEYS : List String := ["id", "type", "etag"]

/-- `_TableOutput._capitalize_first_char`. -/
def capitalize_first_char (x : String) : String :=
  match x.data with
  | [] => x
  | c :: cs => String.mk (c.toUpper :: cs)

/-- The key iteration order of `_auto_table_item` on a dict:
`sorted(item)` when keys should be sorted, else `item.keys()`
(insertion order). -/
def itemKeys (should_sort_keys : Bool) (es : List (String × Value)) : List String :=
  if should_sort_keys then pySorted strLe (es.map Prod.fst) else es.map Prod.fst

/-- `_TableOutput._auto_table_item`: build the displayed row of one
record.  A dict keeps the keys outside `SKIP_KEYS` whose value is
truthy and not a list/dict/set, capitalizing the first character; a
list degrades to `Column1, Column2, ...`; anything else to a single
`Result` column. -/
def auto_table_item (should_sort_keys : Bool) (item : Value) : List (String × Value) :=
  match item with
  | .vdict es | .vodict es =>
      (itemKeys should_sort_keys es).filterMap (fun k =>
        if k ∈ SKIP_KEYS then none
        else match assocFind es k with
          | some v =>
              if truthy v && !(isList v || isDict v || isSet v) then
                some (capitalize_first_char k, v)
              else none
          | none => none)
  | .vlist xs =>
      (List.range xs.length).zip xs |>.map (fun p =>
        ("Column" ++ toString (p.1 + 1), p.2))
  | v => [("Result", v)]

/-- `_TableOutput._auto_table` on a list result. -/
def auto_table (should_sort_keys : Bool) (result : List Value) : List (List (String × Value)) :=
  result.map (auto_table_item should_sort_keys)

/-- Header list of a table: union of row keys in first-appearance
order (how `tabulate(..., headers="keys")` derives its header row). -/
def unionKeys (rows : List (List (String × Value))) : List String :=
  rows.foldl (fun acc row =>
    acc ++ (row.map Prod.fst).filter (fun k => !(acc.contains k))) []

/-- One rendered data line of the spec-modelled `tabulate`. -/
def rowLine (headers : List String) (row : List (String × Value)) : String :=
  String.intercalate "  " (headers.map (fun h =>
    match assocFind row h with
    | some v => pyStr v
    | none => ""))

/-- Join lines with a newline character (at the character level, so
line structure is provable). -/
def joinChars : List (List Char) → List Char
  | [] => []
  | [l] => l
  | l :: rest => l ++ '\n' :: joinChars rest

def joinLines (ls : List String) : String :=
  String.mk (joinChars (ls.map String.data))

/-- The header line of the spec-modelled `tabulate`. -/
def headerLine (headers : List String) : String :=
  String.intercalate "  " headers

/-- The dashed separator line of the spec-modelled `tabulate`'s
"simple" format. -/
def sepLine (headers : List String) : String :=
  String.intercalate "  " (headers.map (fun h => String.mk (List.replicate h.length '-')))

/-- Modelled from the spec: the external `tabulate` library, "simple"
table format with `headers="keys"` (the source's only use).  The spec
describes its output as a header row plus a simple-format body with
one line per record; the model renders a header line, a separator
line, and one line per row, and returns the bare newline string when
there are no extractable columns (the condition the source's `dump`
tests for).  Column padding is cosmetic and not modelled. -/
def tabulateSimple (rows : List (List (String × Value))) : String :=
  let headers := unionKeys rows
  if headers.isEmpty then "\n"
  else joinLines (headerLine headers :: sepLine headers :: rows.map (rowLine headers))

/-- `_TableOutput.dump`: tabulate the auto-table and raise
`ValueError` when no fields could be extracted. -/
def dump (should_sort_keys : Bool) (data : List Value) : Except String String :=
  let table_data := auto_table should_sort_keys data
  let table_str := if !table_data.isEmpty then tabulateSimple table_data else ""
  if table_str = "\n" then .error "Unable to extract fields for table."
  else .ok (table_str ++ "\n")

end TableOutput

/-- The `CLIError` message `_format_table` raises on any failure. -/
def tableUnavailableMsg : String :=
  "Table output unavailable. Use the --query option to specify an appropriate query. Use --debug for more info."

/-- The result that `_format_table` actually tabulates: the transform
is applied only when present and no query is active. -/
def tableResult (obj : CommandResultItem) : Value :=
  match obj.table_transformer, obj.is_query_active with
  | some t, false => t obj.result
  | _, _ => obj.result

/-- `_format_table`'s `should_sort_keys` flag. -/
def shouldSortKeys (obj : CommandResultItem) : Bool :=
  !obj.is_query_active && obj.table_transformer.isNone

/-- The `result_list` of `_format_table`: the (possibly transformed)
result, wrapped in a singleton list when it is not a list. -/
def tableResultList (obj : CommandResultItem) : List Value :=
  match tableResult obj with
  | .vlist xs => xs
  | v => [v]

/-- `clicore.output._format_table`: apply the transform when a query
is not active, wrap a non-list result, dump as a table, and convert
any failure into the single user-facing `CLIError`. -/
def format_table (obj : CommandResultItem) : Except String String :=
  match TableOutput.dump (shouldSortKeys obj) (tableResultList obj) with
  | .ok s => .ok s
  | .error _ => .error tableUnavailableMsg

/-- Linux `errno.EPIPE`. -/
def EPIPE : Nat := 32

/-- The outcome of one `print(..., file=self.file)` attempt, an input
of the `out` model (the stream's behaviour is environmental). -/
inductive WriteOutcome where
  | success : WriteOutcome
  | ioError (errno : Nat) : WriteOutcome
  | unicodeEncodeError : WriteOutcome

/-- The argument passed to `OutputProducer.out`: dynamically typed in
Python, either a `CommandResultItem` or something else. -/
inductive OutArg where
  | envelope (obj : CommandResultItem) : OutArg
  | nonEnvelope : OutArg

/-- How a call to `OutputProducer.out` ends. -/
inductive OutError where
  | typeError : OutError
  | cliError (msg : String) : OutError
  | ioError (errno : Nat) : OutError
  | unicodeEncodeError : OutError

/-- `output.encode('ascii', 'ignore').decode('utf-8', 'ignore')`:
drop every non-ASCII character. -/
def asciiIgnore (s : String) : String :=
  String.mk (s.data.filter (fun c => c.val ≤ 127))

/-- `OutputProducer.out`.  The formatter is the producer's selected
strategy (fallible, like `_format_table`); `first` and `second` are
the outcomes of the at most two write attempts.  Returns the list of
strings successfully written to the stream, or the error that
propagated.  (The Windows `colorama` wrapping of the stream is
cosmetic and not modelled.) -/
def OutputProducer.out (formatter : CommandResultItem → Except String String)
    (arg : OutArg) (first second : WriteOutcome) : Except OutError (List String) :=
  match arg with
  | .nonEnvelope => .error .typeError
  | .envelope obj =>
    match formatter obj with
    | .error e => .error (.cliError e)
    | .ok output =>
      match first with
      | .success => .ok [output]
      | .ioError e => if e = EPIPE then .ok [] else .error (.ioError e)
      | .unicodeEncodeError =>
          match second with
          | .success => .ok [asciiIgnore output]
          | .ioError e => .error (.ioError e)
          | .unicodeEncodeError => .error .unicodeEncodeError

end ClicoreOutput

section KnackHelp

/-- The exceptions the help-model code can raise: the
`HelpAuthoringException` of `knack.help`, the `IndexError` that
`_normalize_text` raises on a length-≥-2 string stripping to empty,
and the `StopIteration` of the exhausted `next(...)` in
`CommandHelpFile.__init__`. -/
inductive PyError where
  | helpAuthoring (msg : String) : PyError
  | indexError : PyError
  | stopIteration : PyError
  deriving DecidableEq

/-- `knack.help.HelpObject._normalize_text`.  The argument is an
`Option` because Python passes `None` descriptions through it; the
result is `none` exactly when the source raises `IndexError` (a
string of length ≥ 2 that strips to empty, making `s[0]` fail). -/
def normalize_text : Option String → Option String
  | none => some ""
  | some s =>
    if s = "" then some ""
    else if s.length < 2 then some s
    else
      match (pyStrip s).data with
      | [] => none
      | c :: cs =>
        let initial_upper := String.mk (c.toUpper :: cs)
        let trailing_period :=
          if (c :: cs).getLastD c ∈ ['.', '!', '?'] then "" else "."
        some (initial_upper ++ trailing_period)

/-- Assignment through the `short_summary` / `long_summary` property
setter on a string value: store the normalized text, propagating the
normalizer's `IndexError`. -/
def normSet (s : String) : Except PyError String :=
  match normalize_text (some s) with
  | some t => .ok t
  | none => .error .indexError

/-- `knack.help.HelpParameter` (the fields its constructor sets). -/
structure HelpParameter where
  name : String
  required : Bool
  type : String
  short_summary : String
  long_summary : String
  value_sources : List String
  choices : Option (List String)
  default : Option Value
  group_name : Option String

/-- `HelpParameter.__init__`: `type` defaults to `"string"`, the
description is stored through the normalizing `short_summary` setter
(`none` models the setter's `IndexError`), `long_summary` is set to
the empty string. -/
def mkHelpParameter (param_name : String) (description : Option String)
    (required : Bool) (choices : Option (List String)) (default : Option Value)
    (group_name : Option String) : Option HelpParameter :=
  match normalize_text description with
  | none => none
  | some ss =>
      some ⟨param_name, required, "string", ss, "", [], choices, default, group_name⟩

/-- One entry of an override document's `parameters` list (the schema
requires `name`; the other fields are optional). -/
structure ParamOverride where
  name : String
  type : Option String
  short_summary : Option String
  long_summary : Option String
  populator_commands : Option (List String)

/-- `HelpParameter.update_from_data`: raise `HelpAuthoringException`
on a name mismatch, then copy each truthy field; the two summaries go
through the normalizing setters. -/
def HelpParameter.update_from_data (p : HelpParameter) (d : ParamOverride) :
    Except PyError HelpParameter := do
  if p.name ≠ d.name then
    throw (.helpAuthoring ("mismatched name " ++ p.name ++ " vs. " ++ d.name))
  let p := match d.type with
    | some t => if t = "" then p else { p with type := t }
    | none => p
  let p ← match d.short_summary with
    | some s =>
        if s = "" then pure p else do
          let ss ← normSet s
          pure { p with short_summary := ss }
    | none => pure p
  let p ← match d.long_summary with
    | some s =>
        if s = "" then pure p else do
          let ss ← normSet s
          pure { p with long_summary := ss }
    | none => pure p
  let p := match d.populator_commands with
    | some cs => if cs.isEmpty then p else { p with value_sources := cs }
    | none => p
  pure p

/-- The parameter-merge loop of `CommandHelpFile._load_from_data`
(lines 202-210): walk the live parameters, look up an override entry
by exact name, update when found, keep the parameter either way.
Override entries matching no live parameter are never visited. -/
def mergeParams (overrides : List ParamOverride) :
    List HelpParameter → Except PyError (List HelpParameter)
  | [] => .ok []
  | p :: ps => do
    let p' ← match overrides.find? (fun n => n.name = p.name) with
      | some d => p.update_from_data d
      | none => pure p
    let ps' ← mergeParams overrides ps
    pure (p' :: ps')

/-- `CommandHelpFile._load_from_data`, parameter portion, including
its guard: when the command has no parameters or the document has no
(or an empty) `parameters` list, the merge returns unchanged.  (The
string-document and node-level-field cases do not touch parameters.) -/
def load_from_data_params (params : List HelpParameter)
    (data_parameters : Option (List ParamOverride)) :
    Except PyError (List HelpParameter) :=
  match data_parameters with
  | none => .ok params
  | some ovs =>
      if params.isEmpty || ovs.isEmpty then .ok params
      else mergeParams ovs params

/-- An `argparse` action as `CommandHelpFile.__init__` consumes it:
`option_strings`, `help`, `required`, `choices`, `default`, and the
owning container's `description` (the group name). -/
structure PyAction where
  option_strings : List String
  help : Option String
  required : Bool
  choices : Option (List String)
  default : Option Value
  group_description : Option String

/-- `argparse.SUPPRESS`. -/
def SUPPRESS : String := "==SUPPRESS=="

/-- Force the group of the first parameter named `--help -h` to
`Global Arguments` (the object mutated by the source's `next(...)`
is the first match in list order). -/
def forceHelpGroup : List HelpParameter → List HelpParameter
  | [] => []
  | p :: ps =>
      if p.name = "--help -h" then
        { p with group_name := some "Global Arguments" } :: ps
      else p :: forceHelpGroup ps

/-- The displayed name of one action's parameter: the space-joined
sorted option strings. -/
def actionName (a : PyAction) : String :=
  String.intercalate " " (pySorted strLe a.option_strings)

/-- The `HelpParameter(...)` call of `CommandHelpFile.__init__` for
one action (`none` when the normalizing setter raises). -/
def buildParam (a : PyAction) : Option HelpParameter :=
  mkHelpParameter (actionName a) a.help a.required a.choices a.default a.group_description

/-- The parameter-building loop of `CommandHelpFile.__init__`. -/
def buildParams : List PyAction → Except PyError (List HelpParameter)
  | [] => .ok []
  | a :: as => do
    let p ← match buildParam a with
      | some p => pure p
      | none => Except.error PyError.indexError
    let ps ← buildParams as
    pure (p :: ps)

/-- The parameter-building part of `CommandHelpFile.__init__` (lines
185-194): keep the non-suppressed actions, build a `HelpParameter`
for each (name = space-joined sorted option strings), then locate the
`--help -h` parameter with `next(...)` — `StopIteration` when there is
none — and force its group to `Global Arguments`. -/
def commandHelpParameters (actions : List PyAction) :
    Except PyError (List HelpParameter) := do
  let params ← buildParams (actions.filter (fun a => a.help ≠ some SUPPRESS))
  match params.find? (fun p => p.name = "--help -h") with
  | none => Except.error PyError.stopIteration
  | some _ => pure (forceHelpGroup params)

/-- `ArgumentGroupRegistry.__init__`'s loop: give each name in the
list the next priority, starting at `priority`. -/
def assignFrom : Nat → List String → List (String × Nat)
  | _, [] => []
  | priority, g :: gs => (g, priority) :: assignFrom (priority + 1) gs

/-- `sorted(list(set(group_list)))`: the distinct names, sorted. -/
def sortedDistinct (group_list : List String) : List String :=
  pySorted strLe group_list.dedup

/-- The distinct group names other than `Global Arguments` (and
`None`, which cannot occur in a list of strings), alphabetically: the
names the registry's loop walks. -/
def otherGroups (group_list : List String) : List String :=
  (sortedDistinct group_list).filter (fun g => g ≠ "Global Arguments")

/-- The entries the registry's loop adds beyond the two static ones:
the other group names, alphabetically, priorities consecutive from
2. -/
def registryOthers (group_list : List String) : List (String × Nat) :=
  assignFrom 2 (otherGroups group_list)

/-- `self.priorities.get(group_name, 0)`: the static entries
`{None: 0, 'Global Arguments': 1000}` plus the assigned ones, default
0. -/
def groupPriorityNat (group_list : List String) (group_name : Option String) : Nat :=
  match group_name with
  | none => 0
  | some g =>
      if g = "Global Arguments" then 1000
      else match (registryOthers group_list).lookup g with
        | some v => v
        | none => 0

/-- `ArgumentGroupRegistry.get_group_priority`: `"%06d" % key`. -/
def get_group_priority (group_list : List String) (group_name : Option String) : String :=
  pad6 (groupPriorityNat group_list group_name)

/-- `CLIHelp._print_arguments._get_parameter_key`:
`'{}{}{}'.format(get_group_priority(group), str(not required), name)`. -/
def parameterKey (group_list : List String) (p : HelpParameter) : String :=
  get_group_priority group_list p.group_name ++
    (if p.required then "False" else "True") ++ p.name

/-- The group list `_print_arguments` builds the registry from:
the truthy group names of the command's parameters. -/
def parameterGroupList (params : List HelpParameter) : List String :=
  params.filterMap (fun p => match p.group_name with
    | some g => if g = "" then none else some g
    | none => none)

/-- The rendered argument order of `_print_arguments`:
`sorted(help_file.parameters, key=_get_parameter_key)`. -/
def sortedParameters (params : List HelpParameter) : List HelpParameter :=
  pySorted (fun p q => strLe (parameterKey (parameterGroupList params) p)
    (parameterKey (parameterGroupList params) q)) params

end KnackHelp

section ClaimSupport

/-- Fixture: a live `--help -h` parameter. -/
def c1HelpParam : HelpParameter :=
  ⟨"--help -h", false, "string", "Show this help message and exit.", "", [], none, none,
    some "Global Arguments"⟩

/-- Fixture: a live `--foo` parameter. -/
def c1FooParam : HelpParameter :=
  ⟨"--foo", false, "string", "Foo text.", "", [], none, none, none⟩

/-- Fixture: an override entry naming a parameter the command does not
have. -/
def c1BadOverride : ParamOverride :=
  ⟨"--nonexistent", none, some "New summary", none, none⟩

/-- Fixture: the record of the spec's TSV example. -/
def c2Record : Value :=
  .vdict [("a", .vbool true), ("b", .vlist [.vint 1, .vint 2, .vint 3])]

/-- Fixture: a constant formatter for the `c9` witness. -/
def c9Formatter : CommandResultItem → Except String String := fun _ => .ok "x"

/-- Fixture: a trivial envelope for the `c9` witness. -/
def c9Env : CommandResultItem := ⟨.vnone, none, false⟩

/-- Fixture: a suppressed-help-free action whose help text is two
blanks — the input on which `_normalize_text` raises `IndexError`. -/
def c10BadAction : PyAction := ⟨["--bogus"], some "  ", false, none, none, none⟩

/-- Fixture: an ordinary `--help`/`-h` action. -/
def c10HelpAction : PyAction :=
  ⟨["-h", "--help"], some "show this help message and exit", false, none, none, none⟩

/-- Spec-side, from the spec's words: the transform is applied iff a
transform is present and `queryApplied` is false. -/
def spec_transformApplied (obj : CommandResultItem) : Bool :=
  obj.table_transformer.isSome && !obj.is_query_active

/-- Spec-side, from the spec's words: keys are sorted alphabetically
iff neither a query was applied nor a transform is present. -/
def spec_sortKeys (obj : CommandResultItem) : Bool :=
  !(obj.is_query_active || obj.table_transformer.isSome)

/-- Spec-side auto-table pipeline, assembled from the spec's words,
to be compared against the source's `format_table`. -/
def format_table_spec (obj : CommandResultItem) : Except String String :=
  let result :=
    if spec_transformApplied obj then
      match obj.table_transformer with
      | some t => t obj.result
      | none => obj.result
    else obj.result
  let result_list := match result with
    | .vlist xs => xs
    | v => [v]
  match TableOutput.dump (spec_sortKeys obj) result_list with
  | .ok s => .ok s
  | .error _ => .error tableUnavailableMsg

/-- Fixture: an envelope with a transform present and no query. -/
def c3Env : CommandResultItem := ⟨.vnone, some (fun v => v), false⟩

/-- Fixture: a result whose only record has nothing but a reserved
key, so the auto-table has zero extractable columns. -/
def c8Env : CommandResultItem := ⟨.vlist [.vdict [("id", .vstr "1")]], none, false⟩

/-- An "empty" value in the claim's sense: an empty string, list,
mapping or set. -/
def isEmptyVal : Value → Bool
  | .vstr s => s = ""
  | .vlist xs => xs.isEmpty
  | .vdict es => es.isEmpty
  | .vodict es => es.isEmpty
  | .vset xs => xs.isEmpty
  | _ => false

/-- Fixture: the spec's auto-table example record list (with
lowercase reserved key and an empty nested mapping). -/
def c4Records : List Value :=
  [Value.vdict [("name", Value.vstr "foo"), ("id", Value.vstr "1"),
    ("tags", Value.vdict [])]]

/-- Fixture: a required `Networking`-group parameter. -/
def c7P : HelpParameter :=
  ⟨"--alpha", true, "string", "", "", [], none, none, some "Networking"⟩

/-- Fixture: an optional `Global Arguments` parameter. -/
def c7Q : HelpParameter :=
  ⟨"--beta", false, "string", "", "", [], none, none, some "Global Arguments"⟩

end ClaimSupport

section OrderLemmas

theorem lexLt_nil_nil : lexLt [] [] = false := rfl

theorem lexLt_nil_cons (y : Char) (ys : List Char) : lexLt [] (y :: ys) = true := rfl

theorem lexLt_cons_nil (x : Char) (xs : List Char) : lexLt (x :: xs) [] = false := rfl

theorem lexLt_cons (x y : Char) (xs ys : List Char) :
    lexLt (x :: xs) (y :: ys) =
      if x < y then true else if y < x then false else lexLt xs ys := rfl

theorem lexLt_asymm : ∀ {a b : List Char}, lexLt a b = true → lexLt b a = false := by
  intro a
  induction a with
  | nil =>
    intro b h
    cases b with
    | nil => simp [lexLt_nil_nil] at h
    | cons y ys => exact lexLt_cons_nil y ys
  | cons x xs ih =>
    intro b h
    cases b with
    | nil => simp [lexLt_cons_nil] at h
    | cons y ys =>
      rw [lexLt_cons] at h
      rw [lexLt_cons]
      rcases lt_trichotomy x y with hlt | heq | hgt
      · have : ¬ y < x := fun h2 => absurd (lt_trans hlt h2) (lt_irrefl x)
        rw [if_neg this, if_pos hlt]
      · subst heq
        rw [if_neg (lt_irrefl x), if_neg (lt_irrefl x)] at h ⊢
        exact ih h
      · rw [if_neg (fun h2 => absurd (lt_trans hgt h2) (lt_irrefl y)), if_pos hgt] at h
        simp at h

theorem lexLt_eq_of_not : ∀ {a b : List Char},
    lexLt a b = false → lexLt b a = false → a = b := by
  intro a
  induction a with
  | nil =>
    intro b h1 h2
    cases b with
    | nil => rfl
    | cons y ys => simp [lexLt_nil_cons] at h1
  | cons x xs ih =>
    intro b h1 h2
    cases b with
    | nil => simp [lexLt_nil_cons] at h2
    | cons y ys =>
      rw [lexLt_cons] at h1 h2
      rcases lt_trichotomy x y with hlt | heq | hgt
      · rw [if_pos hlt] at h1
        simp at h1
      · subst heq
        rw [if_neg (lt_irrefl x), if_neg (lt_irrefl x)] at h1 h2
        rw [ih h1 h2]
      · rw [if_pos hgt] at h2
        simp at h2

theorem lexLt_trans : ∀ {a b c : List Char},
    lexLt a b = true → lexLt b c = true → lexLt a c = true := by
  intro a
  induction a with
  | nil =>
    intro b c h1 h2
    cases b with
    | nil => simp [lexLt_nil_nil] at h1
    | cons y ys =>
      cases c with
      | nil => simp [lexLt_cons_nil] at h2
      | cons z zs => exact lexLt_nil_cons z zs
  | cons x xs ih =>
    intro b c h1 h2
    cases b with
    | nil => simp [lexLt_cons_nil] at h1
    | cons y ys =>
      cases c with
      | nil => simp [lexLt_cons_nil] at h2
      | cons z zs =>
        rw [lexLt_cons] at h1 h2 ⊢
        rcases lt_trichotomy x y with hxy | hxy | hxy
        · rcases lt_trichotomy y z with hyz | hyz | hyz
          · rw [if_pos (lt_trans hxy hyz)]
          · subst hyz
            rw [if_pos hxy]
          · rw [if_neg (fun h => absurd (lt_trans hyz h) (lt_irrefl z)), if_pos hyz] at h2
            simp at h2
        · subst hxy
          rw [if_neg (lt_irrefl x), if_neg (lt_irrefl x)] at h1
          rcases lt_trichotomy x z with hxz | hxz | hxz
          · rw [if_pos hxz]
          · subst hxz
            rw [if_neg (lt_irrefl x), if_neg (lt_irrefl x)] at h2 ⊢
            exact ih h1 h2
          · rw [if_neg (fun h => absurd (lt_trans hxz h) (lt_irrefl z)), if_pos hxz] at h2
            simp at h2
        · rw [if_neg (fun h => absurd (lt_trans hxy h) (lt_irrefl y)), if_pos hxy] at h1
          simp at h1

theorem strLe_total (a b : String) : strLe a b = true ∨ strLe b a = true := by
  by_cases h : lexLt b.data a.data = true
  · right
    simp [strLe, strLt, lexLt_asymm h]
  · left
    simp [strLe, strLt, eq_false_of_ne_true h]

theorem strLe_trans {a b c : String} (h1 : strLe a b = true) (h2 : strLe b c = true) :
    strLe a c = true := by
  simp only [strLe, strLt, Bool.not_eq_true'] at h1 h2 ⊢
  by_contra hca
  have hca' : lexLt c.data a.data = true := by
    cases h : lexLt c.data a.data
    · exact absurd h hca
    · rfl
  rcases (show b.data = a.data ∨ lexLt a.data b.data = true by
    by_cases hab : lexLt a.data b.data = true
    · exact Or.inr hab
    · exact Or.inl (lexLt_eq_of_not h1 (eq_false_of_ne_true hab))) with hba | hab
  · rw [← hba] at hca'
    rw [hca'] at h2
    simp at h2
  · have : lexLt c.data b.data = true := lexLt_trans hca' hab
    rw [this] at h2
    simp at h2

theorem strLe_antisymm {a b : String} (h1 : strLe a b = true) (h2 : strLe b a = true) :
    a = b := by
  simp only [strLe, strLt, Bool.not_eq_true'] at h1 h2
  obtain ⟨da⟩ := a
  obtain ⟨db⟩ := b
  exact congrArg String.mk (lexLt_eq_of_not h2 h1)

theorem pyInsert_perm {α : Type} (le : α → α → Bool) (a : α) :
    ∀ l : List α, (pyInsert le a l).Perm (a :: l)
  | [] => List.Perm.refl _
  | b :: bs => by
    simp only [pyInsert]
    by_cases h : le a b = true
    · simp [h]
    · simp only [h, if_false]
      exact ((pyInsert_perm le a bs).cons b).trans (List.Perm.swap a b bs)

theorem pySorted_perm {α : Type} (le : α → α → Bool) :
    ∀ l : List α, (pySorted le l).Perm l
  | [] => List.Perm.refl _
  | a :: as =>
    (pyInsert_perm le a (pySorted le as)).trans ((pySorted_perm le as).cons a)

theorem pyInsert_pairwise {α : Type} {le : α → α → Bool}
    (htot : ∀ x y, le x y = true ∨ le y x = true)
    (htrans : ∀ x y z, le x y = true → le y z = true → le x z = true)
    {a : α} : ∀ {l : List α}, List.Pairwise (fun x y => le x y = true) l →
      List.Pairwise (fun x y => le x y = true) (pyInsert le a l)
  | [], _ => by simp [pyInsert]
  | b :: bs, h => by
    simp only [pyInsert]
    rcases List.pairwise_cons.mp h with ⟨hb, hbs⟩
    by_cases hab : le a b = true
    · simp only [hab, if_true]
      refine List.pairwise_cons.mpr ⟨?_, h⟩
      intro x hx
      rcases List.mem_cons.mp hx with hx | hx
      · subst hx
        exact hab
      · exact htrans a b x hab (hb x hx)
    · simp only [hab, if_false]
      refine List.pairwise_cons.mpr ⟨?_, pyInsert_pairwise htot htrans hbs⟩
      intro x hx
      rcases List.mem_cons.mp (((pyInsert_perm le a bs).mem_iff).mp hx) with hx' | hx'
      · subst hx'
        rcases htot x b with h' | h'
        · exact absurd h' hab
        · exact h'
      · exact hb x hx'

theorem pySorted_pairwise {α : Type} {le : α → α → Bool}
    (htot : ∀ x y, le x y = true ∨ le y x = true)
    (htrans : ∀ x y z, le x y = true → le y z = true → le x z = true) :
    ∀ l : List α, List.Pairwise (fun x y => le x y = true) (pySorted le l)
  | [] => List.Pairwise.nil
  | _ :: as => pyInsert_pairwise htot htrans (pySorted_pairwise htot htrans as)

/-- Totality of the by-key comparison on dict items. -/
theorem itemLe_total (p q : String × Value) :
    strLe p.1 q.1 = true ∨ strLe q.1 p.1 = true := strLe_total p.1 q.1

/-- Sorting a dict's items by key is insensitive to the dict's
internal order when the keys are distinct: the two sorted item lists
coincide. -/
theorem sortedItems_perm_eq {es₁ es₂ : List (String × Value)}
    (hp : es₁.Perm es₂) (hn : (es₁.map Prod.fst).Nodup) :
    TsvOutput.sortedItems es₁ = TsvOutput.sortedItems es₂ := by
  apply @List.Perm.eq_of_sorted _ (fun p q => strLe p.1 q.1 = true)
  · intro a b ha hb hab hba
    have hkey : a.1 = b.1 := strLe_antisymm hab hba
    have ha' : a ∈ es₁ := (pySorted_perm _ es₁).mem_iff.mp ha
    have hb' : b ∈ es₁ := hp.symm.mem_iff.mp ((pySorted_perm _ es₂).mem_iff.mp hb)
    exact List.inj_on_of_nodup_map hn ha' hb' hkey
  · exact pySorted_pairwise itemLe_total (fun x y z => strLe_trans) es₁
  · exact pySorted_pairwise itemLe_total (fun x y z => strLe_trans) es₂
  · exact ((pySorted_perm _ es₁).trans hp).trans (pySorted_perm _ es₂).symm

end OrderLemmas

section PadLemmas

theorem lexLt_irrefl : ∀ (l : List Char), lexLt l l = false := by
  intro l
  induction l with
  | nil => rfl
  | cons x xs ih =>
    rw [lexLt_cons, if_neg (lt_irrefl x), if_neg (lt_irrefl x), ih]

theorem padDigits_length : ∀ (k n : Nat), (padDigits k n).length = k := by
  intro k
  induction k with
  | zero => intro n; rfl
  | succ k ih =>
    intro n
    simp [padDigits, ih]

theorem digitChar_lt_iff : ∀ i < 10, ∀ j < 10,
    (Nat.digitChar i < Nat.digitChar j ↔ i < j) := by decide

theorem padDigits_lt_iff : ∀ (k a b : Nat), a < 10 ^ k → b < 10 ^ k →
    (lexLt (padDigits k a) (padDigits k b) = true ↔ a < b) := by
  intro k
  induction k with
  | zero =>
    intro a b ha hb
    interval_cases a
    interval_cases b
    simp [padDigits, lexLt_nil_nil]
  | succ k ih =>
    intro a b ha hb
    have hP : 0 < 10 ^ k := Nat.pos_pow_of_pos k (by norm_num)
    have hpow : (10 : Nat) ^ (k + 1) = 10 * 10 ^ k := by ring
    have hqa : a / 10 ^ k < 10 := by
      rw [Nat.div_lt_iff_lt_mul hP]
      omega
    have hqb : b / 10 ^ k < 10 := by
      rw [Nat.div_lt_iff_lt_mul hP]
      omega
    have hra : a % 10 ^ k < 10 ^ k := Nat.mod_lt a hP
    have hrb : b % 10 ^ k < 10 ^ k := Nat.mod_lt b hP
    have hadecomp : 10 ^ k * (a / 10 ^ k) + a % 10 ^ k = a := Nat.div_add_mod a (10 ^ k)
    have hbdecomp : 10 ^ k * (b / 10 ^ k) + b % 10 ^ k = b := Nat.div_add_mod b (10 ^ k)
    simp only [padDigits, lexLt_cons]
    rcases lt_trichotomy (a / 10 ^ k) (b / 10 ^ k) with hq | hq | hq
    · have hd : Nat.digitChar (a / 10 ^ k) < Nat.digitChar (b / 10 ^ k) :=
        (digitChar_lt_iff _ hqa _ hqb).mpr hq
      rw [if_pos hd]
      have hab : a < b := by
        calc a = 10 ^ k * (a / 10 ^ k) + a % 10 ^ k := hadecomp.symm
          _ < 10 ^ k * (a / 10 ^ k) + 10 ^ k := by omega
          _ = 10 ^ k * (a / 10 ^ k + 1) := by ring
          _ ≤ 10 ^ k * (b / 10 ^ k) := Nat.mul_le_mul_left _ hq
          _ ≤ 10 ^ k * (b / 10 ^ k) + b % 10 ^ k := Nat.le_add_right _ _
          _ = b := hbdecomp
      simp [hab]
    · have hd : Nat.digitChar (a / 10 ^ k) = Nat.digitChar (b / 10 ^ k) := by rw [hq]
      rw [if_neg (by rw [hd]; exact lt_irrefl _), if_neg (by rw [hd]; exact lt_irrefl _)]
      rw [ih _ _ hra hrb]
      constructor
      · intro hr
        calc a = 10 ^ k * (a / 10 ^ k) + a % 10 ^ k := hadecomp.symm
          _ < 10 ^ k * (a / 10 ^ k) + b % 10 ^ k := by omega
          _ = 10 ^ k * (b / 10 ^ k) + b % 10 ^ k := by rw [hq]
          _ = b := hbdecomp
      · intro hab
        by_contra hr
        have hr' : b % 10 ^ k ≤ a % 10 ^ k := Nat.le_of_not_lt hr
        have : b ≤ a := by
          calc b = 10 ^ k * (b / 10 ^ k) + b % 10 ^ k := hbdecomp.symm
            _ = 10 ^ k * (a / 10 ^ k) + b % 10 ^ k := by rw [hq]
            _ ≤ 10 ^ k * (a / 10 ^ k) + a % 10 ^ k := by omega
            _ = a := hadecomp
        omega
    · have hd : ¬ Nat.digitChar (a / 10 ^ k) < Nat.digitChar (b / 10 ^ k) := by
        intro h
        have := (digitChar_lt_iff _ hqa _ hqb).mp h
        omega
      have hd' : Nat.digitChar (b / 10 ^ k) < Nat.digitChar (a / 10 ^ k) :=
        (digitChar_lt_iff _ hqb _ hqa).mpr hq
      rw [if_neg hd, if_pos hd']
      have hba : b < a := by
        calc b = 10 ^ k * (b / 10 ^ k) + b % 10 ^ k := hbdecomp.symm
          _ < 10 ^ k * (b / 10 ^ k) + 10 ^ k := by omega
          _ = 10 ^ k * (b / 10 ^ k + 1) := by ring
          _ ≤ 10 ^ k * (a / 10 ^ k) := Nat.mul_le_mul_left _ hq
          _ ≤ 10 ^ k * (a / 10 ^ k) + a % 10 ^ k := Nat.le_add_right _ _
          _ = a := hadecomp
      simp [Nat.not_lt_of_lt hba]

theorem padDigits_inj {k a b : Nat} (ha : a < 10 ^ k) (hb : b < 10 ^ k)
    (h : padDigits k a = padDigits k b) : a = b := by
  by_contra hne
  rcases Nat.lt_or_ge a b with hab | hab
  · have := (padDigits_lt_iff k a b ha hb).mpr hab
    rw [h, lexLt_irrefl] at this
    simp at this
  · have hba : b < a := Nat.lt_of_le_of_ne hab (fun h' => hne h'.symm)
    have := (padDigits_lt_iff k b a hb ha).mpr hba
    rw [h, lexLt_irrefl] at this
    simp at this

theorem pad6_data {n : Nat} (h : n < 10 ^ 6) : (pad6 n).data = padDigits 6 n := by
  rw [pad6, if_pos h]

theorem lexLt_append_iff : ∀ {a b u v : List Char}, a.length = b.length →
    (lexLt (a ++ u) (b ++ v) = true ↔
      (lexLt a b = true ∨ (a = b ∧ lexLt u v = true))) := by
  intro a
  induction a with
  | nil =>
    intro b u v hlen
    cases b with
    | nil => simp [lexLt_nil_nil]
    | cons y ys => simp at hlen
  | cons x xs ih =>
    intro b u v hlen
    cases b with
    | nil => simp at hlen
    | cons y ys =>
      simp only [List.length_cons, Nat.add_right_cancel_iff] at hlen
      simp only [List.cons_append, lexLt_cons]
      rcases lt_trichotomy x y with hxy | hxy | hxy
      · simp [hxy]
      · subst hxy
        simp only [lt_self_iff_false, if_false]
        rw [ih hlen]
        constructor
        · rintro (h | ⟨he, h⟩)
          · exact Or.inl h
          · subst he
            exact Or.inr ⟨rfl, h⟩
        · rintro (h | ⟨he, h⟩)
          · exact Or.inl h
          · rw [List.cons_eq_cons] at he
            exact Or.inr ⟨he.2, h⟩
      · have h1 : ¬ x < y := fun h => absurd (lt_trans hxy h) (lt_irrefl y)
        rw [if_neg h1, if_pos hxy]
        constructor
        · intro h
          simp at h
        · rintro (h | ⟨he, h⟩)
          · rw [if_neg h1, if_pos hxy] at h
            simp at h
          · rw [List.cons_eq_cons] at he
            exact absurd he.1 (ne_of_gt hxy)

end PadLemmas

section JoinLemmas

theorem joinChars_count_ge : ∀ (ls : List (List Char)),
    ls.length - 1 ≤ List.count '\n' (TableOutput.joinChars ls) := by
  intro ls
  induction ls with
  | nil => simp [TableOutput.joinChars]
  | cons a rest ih =>
    cases rest with
    | nil => simp [TableOutput.joinChars]
    | cons b rest' =>
      show (b :: rest').length ≤ List.count '\n' (TableOutput.joinChars (a :: b :: rest'))
      rw [show TableOutput.joinChars (a :: b :: rest')
            = a ++ '\n' :: TableOutput.joinChars (b :: rest') from rfl]
      rw [List.count_append, List.count_cons]
      have h2 : (b :: rest').length - 1 ≤ List.count '\n' (TableOutput.joinChars (b :: rest')) := ih
      simp only [List.length_cons] at h2 ⊢
      have hone : (if ('\n' == '\n') = true then 1 else 0) = 1 := by decide
      omega

/-- A joined list of at least three lines is never the bare newline
string. -/
theorem joinLines_ne_newline (l₁ l₂ l₃ : String) (rest : List String) :
    TableOutput.joinLines (l₁ :: l₂ :: l₃ :: rest) ≠ "\n" := by
  intro h
  have hdata : TableOutput.joinChars ((l₁ :: l₂ :: l₃ :: rest).map String.data) = ['\n'] :=
    congrArg String.data h
  have hcount := joinChars_count_ge ((l₁ :: l₂ :: l₃ :: rest).map String.data)
  rw [hdata] at hcount
  simp at hcount

end JoinLemmas

section MergeLemmas

theorem excPureBind {ε : Type} {α β : Type} (x : α) (f : α → Except ε β) :
    (pure x : Except ε α) >>= f = f x := rfl

theorem excOkBind {ε : Type} {α β : Type} (x : α) (f : α → Except ε β) :
    (Except.ok x : Except ε α) >>= f = f x := rfl

theorem excBindError {ε : Type} {α β : Type} (e : ε) (f : α → Except ε β) :
    (Except.error e : Except ε α) >>= f = .error e := rfl

theorem excPureEqError {ε : Type} {α : Type} (x : α) (e : ε) :
    ((pure x : Except ε α) = .error e) ↔ False :=
  ⟨fun h => Except.noConfusion h, False.elim⟩

theorem excOkEqError {ε : Type} {α : Type} (x : α) (e : ε) :
    ((Except.ok x : Except ε α) = .error e) ↔ False :=
  ⟨fun h => Except.noConfusion h, False.elim⟩

theorem excErrorEqError {ε : Type} {α : Type} (e₁ e₂ : ε) :
    ((Except.error e₁ : Except ε α) = .error e₂) ↔ e₁ = e₂ :=
  ⟨fun h => by injection h, fun h => by rw [h]⟩

theorem excThrowBind {ε : Type} {α β : Type} (e : ε) (f : α → Except ε β) :
    (throw e : Except ε α) >>= f = .error e := rfl

/-- `normSet` either stores a normalized string or raises the
normalizer's `IndexError`; it never raises anything else. -/
theorem normSet_cases (s : String) :
    (∃ t, normSet s = .ok t) ∨ normSet s = .error .indexError := by
  unfold normSet
  cases normalize_text (some s)
  · right
    rfl
  · left
    exact ⟨_, rfl⟩

/-- An error coming out of `update_from_data` is either the
normalizer's `IndexError` or — only when the names mismatch — the
`HelpAuthoringException`. -/
theorem update_from_data_error (p : HelpParameter) (d : ParamOverride) (e : PyError)
    (h : p.update_from_data d = .error e) :
    e = .indexError ∨
    (p.name ≠ d.name ∧
      e = .helpAuthoring ("mismatched name " ++ p.name ++ " vs. " ++ d.name)) := by
  by_cases hname : p.name = d.name
  · left
    unfold HelpParameter.update_from_data at h
    rw [if_neg (by simp [hname])] at h
    rcases hss : d.short_summary with _ | s
    all_goals rcases hls : d.long_summary with _ | t
    all_goals rw [hss, hls] at h
    · simp [excPureBind, excOkBind, excBindError, excPureEqError, excOkEqError, excErrorEqError] at h
    · by_cases ht : t = ""
      · simp [ht, excPureBind, excOkBind, excBindError, excPureEqError, excOkEqError, excErrorEqError] at h
      · rcases normSet_cases t with ⟨u, hu⟩ | hu <;> simp [ht, hu, excPureBind, excOkBind, excBindError, excPureEqError, excOkEqError, excErrorEqError] at h
        exact h.symm
    · by_cases hs : s = ""
      · simp [hs, excPureBind, excOkBind, excBindError, excPureEqError, excOkEqError, excErrorEqError] at h
      · rcases normSet_cases s with ⟨u, hu⟩ | hu <;> simp [hs, hu, excPureBind, excOkBind, excBindError, excPureEqError, excOkEqError, excErrorEqError] at h
        exact h.symm
    · by_cases hs : s = ""
      · by_cases ht : t = ""
        · simp [hs, ht, excPureBind, excOkBind, excBindError, excPureEqError, excOkEqError, excErrorEqError] at h
        · rcases normSet_cases t with ⟨u, hu⟩ | hu <;> simp [hs, ht, hu, excPureBind, excOkBind, excBindError, excPureEqError, excOkEqError, excErrorEqError] at h
          exact h.symm
      · rcases normSet_cases s with ⟨u, hu⟩ | hu
        · by_cases ht : t = ""
          · simp [hs, ht, hu, excPureBind, excOkBind, excBindError, excPureEqError, excOkEqError, excErrorEqError] at h
          · rcases normSet_cases t with ⟨w, hw⟩ | hw <;> simp [hs, ht, hu, hw, excPureBind, excOkBind, excBindError, excPureEqError, excOkEqError, excErrorEqError] at h
            exact h.symm
        · simp [hs, hu, excPureBind, excOkBind, excBindError, excPureEqError, excOkEqError, excErrorEqError] at h
          exact h.symm
  · right
    refine ⟨hname, ?_⟩
    unfold HelpParameter.update_from_data at h
    rw [if_pos (by simp [hname])] at h
    rw [excThrowBind] at h
    exact ((excErrorEqError _ _).mp h).symm

/-- A mismatched name makes `update_from_data` raise the authoring
failure. -/
theorem update_from_data_mismatch {p : HelpParameter} {d : ParamOverride}
    (h : p.name ≠ d.name) :
    p.update_from_data d
      = .error (.helpAuthoring ("mismatched name " ++ p.name ++ " vs. " ++ d.name)) := by
  unfold HelpParameter.update_from_data
  rw [if_pos (by simp [h])]
  rfl

/-- When no override entry matches any live parameter, the merge loop
returns the parameters unchanged. -/
theorem mergeParams_skip {overrides : List ParamOverride} :
    ∀ {ps : List HelpParameter},
      (∀ p ∈ ps, overrides.find? (fun n => n.name = p.name) = none) →
      mergeParams overrides ps = .ok ps
  | [], _ => rfl
  | p :: ps, h => by
    have hp : overrides.find? (fun n => n.name = p.name) = none :=
      h p (List.mem_cons_self p ps)
    have hrest : mergeParams overrides ps = .ok ps :=
      mergeParams_skip (fun q hq => h q (List.mem_cons_of_mem p hq))
    simp [mergeParams, hp, hrest]

/-- An error coming out of the merge loop is always the normalizer's
`IndexError`: the loop only invokes `update_from_data` on an entry
found by name equality, so the authoring failure is unreachable. -/
theorem mergeParams_error (overrides : List ParamOverride) :
    ∀ (ps : List HelpParameter) (e : PyError),
      mergeParams overrides ps = .error e → e = .indexError
  | [], e => by simp [mergeParams]
  | p :: ps, e => by
    intro h
    simp only [mergeParams] at h
    rcases hf : overrides.find? (fun n => n.name = p.name) with _ | d
    all_goals rw [hf] at h
    all_goals dsimp only [] at h
    · rcases hm : mergeParams overrides ps with e' | ps'
      all_goals rw [hm] at h
      · simp [excPureBind, excOkBind, excBindError, excPureEqError, excOkEqError, excErrorEqError] at h
        exact h ▸ mergeParams_error overrides ps e' hm
      · simp [excPureBind, excOkBind, excBindError, excPureEqError, excOkEqError, excErrorEqError] at h
    · have hname : d.name = p.name := by
        have := List.find?_some hf
        simpa using this
      rcases hu : p.update_from_data d with e' | q
      all_goals rw [hu] at h
      · simp [excPureBind, excOkBind, excBindError, excPureEqError, excOkEqError, excErrorEqError] at h
        rcases update_from_data_error p d e' hu with he | ⟨hne, _⟩
        · exact h ▸ he
        · exact absurd hname.symm hne
      · rcases hm : mergeParams overrides ps with e' | ps'
        all_goals rw [hm] at h
        · simp [excPureBind, excOkBind, excBindError, excPureEqError, excOkEqError, excErrorEqError] at h
          exact h ▸ mergeParams_error overrides ps e' hm
        · simp [excPureBind, excOkBind, excBindError, excPureEqError, excOkEqError, excErrorEqError] at h

/-- Corollary: the merge never surfaces the authoring failure. -/
theorem mergeParams_no_authoring (overrides : List ParamOverride)
    (ps : List HelpParameter) (msg : String) :
    mergeParams overrides ps ≠ .error (.helpAuthoring msg) := by
  intro h
  have := mergeParams_error overrides ps (.helpAuthoring msg) h
  simp at this

end MergeLemmas

section ClaimC1

/-- **C1, counterexample.**  The claim says an override document with a
parameter entry named `--nonexistent`, matching no live parameter,
makes the merge raise `HelpAuthoringException`.  It does not: for a
command with live parameters `--help -h` and `--foo`, merging a
document whose only parameter entry is `--nonexistent` returns the
parameters unchanged and raises nothing — the entry is silently
skipped. -/
theorem c1_counterexample :
    load_from_data_params [c1HelpParam, c1FooParam] (some [c1BadOverride])
      = .ok [c1HelpParam, c1FooParam] := rfl

/-- **C1, amended.**  The merge loop of `CommandHelpFile._load_from_data`
walks the live parameters, looking up override entries by name:
entries matching no live parameter are silently ignored and the merge
returns the live parameters unchanged; the merge can never raise
`HelpAuthoringException`.  The authoring-mismatch failure exists only
in `HelpParameter.update_from_data` itself, which raises it exactly
when invoked with an entry whose name differs from the parameter's. -/
theorem c1_amended (params : List HelpParameter) (overrides : List ParamOverride)
    (p : HelpParameter) (d : ParamOverride) (hpd : p.name ≠ d.name)
    (hnone : ∀ q ∈ params, ∀ o ∈ overrides, o.name ≠ q.name) :
    p.update_from_data d
        = .error (.helpAuthoring ("mismatched name " ++ p.name ++ " vs. " ++ d.name)) ∧
    load_from_data_params params (some overrides) = .ok params ∧
    (∀ (ps : List HelpParameter) (ovs : List ParamOverride) (msg : String),
      mergeParams ovs ps ≠ .error (.helpAuthoring msg)) := by
  refine ⟨update_from_data_mismatch hpd, ?_,
    fun ps ovs msg => mergeParams_no_authoring ovs ps msg⟩
  show (if params.isEmpty || overrides.isEmpty then Except.ok params
        else mergeParams overrides params) = Except.ok params
  by_cases hcase : (params.isEmpty || overrides.isEmpty) = true
  · rw [if_pos hcase]
  · rw [if_neg hcase]
    apply mergeParams_skip
    intro q hq
    rw [List.find?_eq_none]
    intro o ho
    simp [hnone q hq o ho]

/-- Witness for `c1_amended` at the concrete command and override of
the counterexample. -/
theorem c1_amended_witness :
    c1FooParam.update_from_data c1BadOverride
        = .error (.helpAuthoring
            ("mismatched name " ++ c1FooParam.name ++ " vs. " ++ c1BadOverride.name)) ∧
    load_from_data_params [c1HelpParam, c1FooParam] (some [c1BadOverride])
        = .ok [c1HelpParam, c1FooParam] ∧
    (∀ (ps : List HelpParameter) (ovs : List ParamOverride) (msg : String),
      mergeParams ovs ps ≠ .error (.helpAuthoring msg)) :=
  c1_amended [c1HelpParam, c1FooParam] [c1BadOverride] c1FooParam c1BadOverride
    (by decide) (by decide)

end ClaimC1

section ClaimC2

/-- **C2, counterexample.**  The record of the claim's example,
formatted as TSV, yields the line `True` tab `3` — the boolean cell is
rendered by Python `str()` with a capital T, not the claimed lowercase
`true`. -/
theorem c2_counterexample :
    format_tsv ⟨c2Record, none, false⟩ = "True\t3\n" ∧
    ("True\t3\n" : String) ≠ "true\t3\n" :=
  ⟨rfl, by decide⟩

/-- **C2, amended.**  Only a record that is itself a bare boolean is
rendered as lowercase `true`/`false`; a boolean appearing as a mapping
or list cell goes through `_dump_obj`'s `str()` and renders capitalized
(`True`/`False`); in particular the example record yields the line
`True` tab `3`. -/
theorem c2_amended :
    TsvOutput.dump_row (.vbool true) = "true\n" ∧
    TsvOutput.dump_row (.vbool false) = "false\n" ∧
    (∀ b : Bool, TsvOutput.dump_obj (.vbool b) = if b then "True" else "False") ∧
    format_tsv ⟨c2Record, none, false⟩ = "True\t3\n" := by
  refine ⟨rfl, rfl, ?_, rfl⟩
  intro b
  cases b <;> rfl

end ClaimC2

section ClaimC5

/-- **C5.**  In TSV output: an ordered mapping row emits its cell
values in insertion order; a plain (unordered) mapping row emits its
items sorted by key — so two equivalent unordered mappings (same
key-value pairs in any order, keys distinct) produce byte-identical
rows; a nested list value contributes its element count as text; a
nested mapping value contributes an empty cell. -/
theorem c5_tsv_row_order (oes es₁ es₂ : List (String × Value))
    (hperm : es₁.Perm es₂) (hnodup : (es₁.map Prod.fst).Nodup) :
    (TsvOutput.dump_row (.vodict oes)
        = String.intercalate "\t" (oes.map (fun p => TsvOutput.dump_obj p.2)) ++ "\n") ∧
    ((TsvOutput.sortedItems es₁).Perm es₁ ∧
      List.Pairwise (fun p q => strLe p.1 q.1 = true) (TsvOutput.sortedItems es₁)) ∧
    (TsvOutput.dump_row (.vdict es₁)
        = String.intercalate "\t"
            ((TsvOutput.sortedItems es₁).map (fun p => TsvOutput.dump_obj p.2)) ++ "\n") ∧
    TsvOutput.dump_row (.vdict es₁) = TsvOutput.dump_row (.vdict es₂) ∧
    (∀ v : List Value, TsvOutput.dump_obj (.vlist v) = toString v.length) ∧
    TsvOutput.dump_obj (.vdict es₁) = "" ∧
    TsvOutput.dump_obj (.vodict oes) = "" := by
  refine ⟨rfl,
    ⟨pySorted_perm _ es₁, pySorted_pairwise itemLe_total (fun x y z => strLe_trans) es₁⟩,
    rfl, ?_, fun v => rfl, rfl, rfl⟩
  have e1 : TsvOutput.dump_row (.vdict es₁)
      = String.intercalate "\t"
          ((TsvOutput.sortedItems es₁).map (fun p => TsvOutput.dump_obj p.2)) ++ "\n" := rfl
  have e2 : TsvOutput.dump_row (.vdict es₂)
      = String.intercalate "\t"
          ((TsvOutput.sortedItems es₂).map (fun p => TsvOutput.dump_obj p.2)) ++ "\n" := rfl
  rw [e1, e2, sortedItems_perm_eq hperm hnodup]

/-- Witness for `c5_tsv_row_order` on two permuted two-key dicts. -/
theorem c5_witness :
    (TsvOutput.dump_row (.vodict [("k", .vint 7)])
        = String.intercalate "\t"
            ([("k", Value.vint 7)].map (fun p => TsvOutput.dump_obj p.2)) ++ "\n") ∧
    ((TsvOutput.sortedItems [("b", .vint 2), ("a", .vint 1)]).Perm
        [("b", .vint 2), ("a", .vint 1)] ∧
      List.Pairwise (fun p q => strLe p.1 q.1 = true)
        (TsvOutput.sortedItems [("b", .vint 2), ("a", .vint 1)])) ∧
    (TsvOutput.dump_row (.vdict [("b", .vint 2), ("a", .vint 1)])
        = String.intercalate "\t"
            ((TsvOutput.sortedItems [("b", .vint 2), ("a", .vint 1)]).map
              (fun p => TsvOutput.dump_obj p.2)) ++ "\n") ∧
    TsvOutput.dump_row (.vdict [("b", .vint 2), ("a", .vint 1)])
        = TsvOutput.dump_row (.vdict [("a", .vint 1), ("b", .vint 2)]) ∧
    (∀ v : List Value, TsvOutput.dump_obj (.vlist v) = toString v.length) ∧
    TsvOutput.dump_obj (.vdict [("b", .vint 2), ("a", .vint 1)]) = "" ∧
    TsvOutput.dump_obj (.vodict [("k", .vint 7)]) = "" :=
  c5_tsv_row_order [("k", .vint 7)] [("b", .vint 2), ("a", .vint 1)]
    [("a", .vint 1), ("b", .vint 2)]
    (List.Perm.swap ("a", Value.vint 1) ("b", Value.vint 2) []) (by decide)

end ClaimC5

section ClaimC9

/-- **C9.**  The Output Writer's `out`: a non-envelope argument fails
with the type-mismatch error before any formatting or writing; a
broken-pipe failure on the write is fully suppressed (nothing written,
no error); any other I/O failure propagates; a text-encoding failure
is recovered exactly once by re-encoding the output with unencodable
characters dropped and retrying the write. -/
theorem c9_output_writer (formatter : CommandResultItem → Except String String)
    (obj : CommandResultItem) (fw sw : WriteOutcome) (s : String) (e : Nat) :
    (OutputProducer.out formatter .nonEnvelope fw sw = .error .typeError) ∧
    (formatter obj = .ok s →
      OutputProducer.out formatter (.envelope obj) (.ioError EPIPE) sw = .ok []) ∧
    (formatter obj = .ok s → e ≠ EPIPE →
      OutputProducer.out formatter (.envelope obj) (.ioError e) sw
        = .error (.ioError e)) ∧
    (formatter obj = .ok s →
      OutputProducer.out formatter (.envelope obj) .unicodeEncodeError .success
        = .ok [asciiIgnore s]) := by
  refine ⟨rfl, ?_, ?_, ?_⟩
  · intro h
    simp [OutputProducer.out, h]
  · intro h he
    simp [OutputProducer.out, h, he]
  · intro h
    simp [OutputProducer.out, h]

/-- Witness for `c9_output_writer` with a constant formatter, a
trivial envelope, and the non-pipe errno 13 (`EACCES`). -/
theorem c9_witness :
    (OutputProducer.out c9Formatter .nonEnvelope .success .success
        = .error .typeError) ∧
    (c9Formatter c9Env = .ok "x" →
      OutputProducer.out c9Formatter (.envelope c9Env) (.ioError EPIPE) .success
        = .ok []) ∧
    (c9Formatter c9Env = .ok "x" → (13 : Nat) ≠ EPIPE →
      OutputProducer.out c9Formatter (.envelope c9Env) (.ioError 13) .success
        = .error (.ioError 13)) ∧
    (c9Formatter c9Env = .ok "x" →
      OutputProducer.out c9Formatter (.envelope c9Env) .unicodeEncodeError .success
        = .ok [asciiIgnore "x"]) :=
  c9_output_writer c9Formatter c9Env .success .success "x" 13

end ClaimC9

section ClaimC6

/-- **C6, counterexample.**  The claim says every non-empty stored
summary is first-character-upper-cased and punctuation-terminated.
But `_normalize_text` returns any string of length < 2 unchanged:
the non-empty input `"x"` is stored as `"x"`, not `"X."`. -/
theorem c6_counterexample :
    normalize_text (some "x") = some "x" ∧ ("x" : String) ≠ "X." :=
  ⟨rfl, by decide⟩

/-- **C6, amended.**  For a value of length ≥ 2 whose stripped form is
non-empty, the stored summary is the stripped text with its first
character upper-cased, terminated by `.` unless it already ends in a
sentence-ending punctuation mark — in particular the stored value
starts with the upper-cased first stripped character and ends in
`.`, `!` or `?`.  Values of length < 2 (and only those non-empty
ones) are stored unchanged. -/
theorem c6_amended (s : String) (c : Char) (cs : List Char)
    (hlen : 2 ≤ s.length) (hstrip : (pyStrip s).data = c :: cs) :
    normalize_text (some s)
      = some (String.mk (c.toUpper :: cs)
          ++ (if (c :: cs).getLastD c ∈ ['.', '!', '?'] then "" else ".")) ∧
    (∀ r, normalize_text (some s) = some r →
      r.data.head? = some c.toUpper ∧
      ∃ p, r.data.getLast? = some p ∧ p ∈ ['.', '!', '?']) ∧
    (∀ t : String, t.length = 1 → normalize_text (some t) = some t) := by
  have hne : s ≠ "" := by
    intro h
    subst h
    simp at hlen
  have heq : normalize_text (some s)
      = some (String.mk (c.toUpper :: cs)
          ++ (if (c :: cs).getLastD c ∈ ['.', '!', '?'] then "" else ".")) := by
    simp only [normalize_text]
    rw [if_neg hne, if_neg (by omega), hstrip]
  refine ⟨heq, ?_, ?_⟩
  · intro r hr
    rw [heq] at hr
    have hrdata : (String.mk (c.toUpper :: cs)
        ++ (if (c :: cs).getLastD c ∈ ['.', '!', '?'] then "" else ".")).data = r.data :=
      congrArg String.data (Option.some_inj.mp hr)
    rw [String.data_append] at hrdata
    by_cases hp : (c :: cs).getLastD c ∈ ['.', '!', '?']
    · rw [if_pos hp] at hrdata
      simp only [List.append_nil] at hrdata
      refine ⟨by rw [← hrdata]; rfl, ?_⟩
      rw [← hrdata]
      cases cs with
      | nil =>
        rw [List.getLastD_eq_getLast?] at hp
        rw [show ([c] : List Char).getLast? = some c from rfl] at hp
        simp only [Option.getD_some] at hp
        refine ⟨c.toUpper, rfl, ?_⟩
        simp only [List.mem_cons, List.not_mem_nil, or_false] at hp ⊢
        rcases hp with h | h | h
        all_goals subst h
        all_goals decide
      | cons c' cs' =>
        obtain ⟨p, hq⟩ : ∃ p, (c' :: cs').getLast? = some p :=
          ⟨(c' :: cs').getLast (by simp), List.getLast?_eq_getLast _ (by simp)⟩
        refine ⟨p, ?_, ?_⟩
        · rw [List.getLast?_cons_cons, hq]
        · rw [List.getLastD_eq_getLast?, List.getLast?_cons_cons, hq] at hp
          simpa using hp
    · rw [if_neg hp] at hrdata
      refine ⟨by rw [← hrdata]; rfl, ⟨'.', ?_, by decide⟩⟩
      rw [← hrdata]
      exact List.getLast?_concat _
  · intro t ht
    simp only [normalize_text]
    rw [if_neg (by intro h; subst h; simp at ht), if_pos (by omega)]

/-- Witness for `c6_amended` at the spec's example input
`"do the thing"`. -/
theorem c6_amended_witness :
    normalize_text (some "do the thing")
      = some (String.mk ('d'.toUpper :: "o the thing".data)
          ++ (if ('d' :: "o the thing".data).getLastD 'd' ∈ ['.', '!', '?']
              then "" else ".")) ∧
    (∀ r, normalize_text (some "do the thing") = some r →
      r.data.head? = some 'd'.toUpper ∧
      ∃ p, r.data.getLast? = some p ∧ p ∈ ['.', '!', '?']) ∧
    (∀ t : String, t.length = 1 → normalize_text (some t) = some t) :=
  c6_amended "do the thing" 'd' "o the thing".data (by decide) (by decide)

end ClaimC6

section ClaimC10

/-- **C10, counterexample.**  The claim says a parser without a
`--help -h` parameter makes construction raise `StopIteration`.  But a
parser whose only action has the whitespace help text `"  "` (length 2,
stripping to empty) makes the normalizing summary setter raise
`IndexError` while the parameters are being built, before the
`next(...)` ever runs — construction fails, but not with
`StopIteration`. -/
theorem c10_counterexample :
    commandHelpParameters [c10BadAction] = .error .indexError ∧
    PyError.indexError ≠ PyError.stopIteration :=
  ⟨rfl, by decide⟩

/-- Building every parameter succeeds when no action's help text makes
the normalizer raise, and each built parameter corresponds to its
action. -/
theorem buildParams_ok_of :
    ∀ (actions : List PyAction), (∀ a ∈ actions, buildParam a ≠ none) →
      ∃ ps, buildParams actions = .ok ps ∧
        List.Forall₂ (fun a p => buildParam a = some p) actions ps
  | [], _ => ⟨[], rfl, List.Forall₂.nil⟩
  | a :: as, h => by
    rcases hb : buildParam a with _ | p
    · exact absurd hb (h a (List.mem_cons_self a as))
    · rcases buildParams_ok_of as (fun x hx => h x (List.mem_cons_of_mem a hx))
        with ⟨ps, hps, hfa⟩
      refine ⟨p :: ps, ?_, List.Forall₂.cons hb hfa⟩
      simp [buildParams, hb, hps, excPureBind, excOkBind]

/-- A successfully built parameter takes its name from the sorted
space-joined option strings and its group from the action's container
description. -/
theorem buildParam_fields {a : PyAction} {p : HelpParameter}
    (h : buildParam a = some p) :
    p.name = actionName a ∧ p.group_name = a.group_description := by
  unfold buildParam mkHelpParameter at h
  rcases hn : normalize_text a.help with _ | ss
  all_goals rw [hn] at h
  · simp at h
  · obtain rfl := Option.some_inj.mp h
    exact ⟨rfl, rfl⟩

/-- If some parameter is named `--help -h`, the forced list contains a
parameter of that name whose group is `Global Arguments`. -/
theorem forceHelpGroup_mem :
    ∀ {ps : List HelpParameter}, (∃ p ∈ ps, p.name = "--help -h") →
      ∃ q ∈ forceHelpGroup ps,
        q.name = "--help -h" ∧ q.group_name = some "Global Arguments" := by
  intro ps
  induction ps with
  | nil =>
    rintro ⟨p, hp, _⟩
    exact absurd hp (List.not_mem_nil p)
  | cons p rest ih =>
    intro hex
    by_cases hp : p.name = "--help -h"
    · refine ⟨{ p with group_name := some "Global Arguments" }, ?_, hp, rfl⟩
      simp [forceHelpGroup, hp]
    · rcases hex with ⟨q, hq, hqname⟩
      rcases List.mem_cons.mp hq with rfl | hq'
      · exact absurd hqname hp
      · rcases ih ⟨q, hq', hqname⟩ with ⟨r, hr, hrname, hrgroup⟩
        refine ⟨r, ?_, hrname, hrgroup⟩
        simp only [forceHelpGroup, hp, if_false]
        exact List.mem_cons_of_mem p hr

/-- Matching existentials across a `Forall₂` correspondence. -/
theorem forall2_exists_iff {α β : Type} {R : α → β → Prop} {P : α → Prop} {Q : β → Prop}
    (hPQ : ∀ a b, R a b → (P a ↔ Q b)) :
    ∀ {l₁ : List α} {l₂ : List β}, List.Forall₂ R l₁ l₂ →
      ((∃ a ∈ l₁, P a) ↔ ∃ b ∈ l₂, Q b) := by
  intro l₁ l₂ hfa
  induction hfa with
  | nil => simp
  | cons hR _ ih =>
    simp only [List.mem_cons, exists_eq_or_imp]
    rw [hPQ _ _ hR, ih]

/-- **C10, amended.**  Provided no retained (non-suppressed) action's
help text makes the normalizer raise, construction of the command help
parameters succeeds exactly when some retained action's sorted
space-joined option strings equal `--help -h`; without such an action
it raises `StopIteration`; on success the built list contains a
`--help -h` parameter whose group was forced to `Global Arguments`.
(For the canonical pair, `sorted(['-h', '--help'])` joins to
`--help -h`.) -/
theorem c10_amended (actions : List PyAction)
    (hnorm : ∀ a ∈ actions.filter (fun a => a.help ≠ some SUPPRESS),
      buildParam a ≠ none) :
    ((∃ ps, commandHelpParameters actions = .ok ps)
        ↔ ∃ a ∈ actions.filter (fun a => a.help ≠ some SUPPRESS),
            actionName a = "--help -h") ∧
    ((¬ ∃ a ∈ actions.filter (fun a => a.help ≠ some SUPPRESS),
        actionName a = "--help -h") →
      commandHelpParameters actions = .error .stopIteration) ∧
    (∀ ps, commandHelpParameters actions = .ok ps →
      ∃ q ∈ ps, q.name = "--help -h" ∧ q.group_name = some "Global Arguments") ∧
    String.intercalate " " (pySorted strLe ["-h", "--help"]) = "--help -h" := by
  obtain ⟨ps, hps, hfa⟩ :=
    buildParams_ok_of (actions.filter (fun a => a.help ≠ some SUPPRESS)) hnorm
  have hiff : (∃ a ∈ actions.filter (fun a => a.help ≠ some SUPPRESS),
      actionName a = "--help -h") ↔ ∃ p ∈ ps, p.name = "--help -h" :=
    forall2_exists_iff
      (fun a p h => by rw [(buildParam_fields h).1]) hfa
  rcases hfind : ps.find? (fun p => p.name = "--help -h") with _ | q
  · have hres : commandHelpParameters actions = .error .stopIteration := by
      unfold commandHelpParameters
      rw [hps, excOkBind, hfind]
    have hnoex : ¬ ∃ p ∈ ps, p.name = "--help -h" := by
      rw [List.find?_eq_none] at hfind
      rintro ⟨p, hp, hname⟩
      exact hfind p hp (by simp [hname])
    refine ⟨?_, fun _ => hres, ?_, by rfl⟩
    · rw [hiff]
      constructor
      · rintro ⟨ps', hps'⟩
        rw [hres] at hps'
        exact absurd hps' (by simp)
      · intro h
        exact absurd h hnoex
    · intro ps' hps'
      rw [hres] at hps'
      exact absurd hps' (by simp)
  · have hres : commandHelpParameters actions = .ok (forceHelpGroup ps) := by
      unfold commandHelpParameters
      rw [hps, excOkBind, hfind]
      rfl
    have hex : ∃ p ∈ ps, p.name = "--help -h" :=
      ⟨q, List.mem_of_find?_eq_some hfind, by simpa using List.find?_some hfind⟩
    refine ⟨?_, ?_, ?_, by rfl⟩
    · rw [hiff]
      exact ⟨fun _ => hex, fun _ => ⟨forceHelpGroup ps, hres⟩⟩
    · intro h
      exact absurd (hiff.mpr hex) h
    · intro ps' hps'
      rw [hres] at hps'
      have : forceHelpGroup ps = ps' := by
        injection hps'
      rw [← this]
      exact forceHelpGroup_mem hex

/-- Witness for `c10_amended` on a parser with the canonical help
action. -/
theorem c10_amended_witness :
    ((∃ ps, commandHelpParameters [c10HelpAction] = .ok ps)
        ↔ ∃ a ∈ [c10HelpAction].filter (fun a => a.help ≠ some SUPPRESS),
            actionName a = "--help -h") ∧
    ((¬ ∃ a ∈ [c10HelpAction].filter (fun a => a.help ≠ some SUPPRESS),
        actionName a = "--help -h") →
      commandHelpParameters [c10HelpAction] = .error .stopIteration) ∧
    (∀ ps, commandHelpParameters [c10HelpAction] = .ok ps →
      ∃ q ∈ ps, q.name = "--help -h" ∧ q.group_name = some "Global Arguments") ∧
    String.intercalate " " (pySorted strLe ["-h", "--help"]) = "--help -h" :=
  c10_amended [c10HelpAction] (by
    intro a ha
    have ha' : a = c10HelpAction := by
      simpa using (List.mem_filter.mp ha).1
    subst ha'
    intro hcontra
    rw [show buildParam c10HelpAction
        = some ⟨"--help -h", false, "string", "Show this help message and exit.", "", [],
            none, none, none⟩ from rfl] at hcontra
    exact Option.noConfusion hcontra)

end ClaimC10

section ClaimC3

/-- **C3.**  The source's `_format_table` coincides with the
spec-side pipeline on every envelope; its key-sorting flag is true
exactly when no query was applied and no transform is present; and
the transform is applied to the result exactly when it is present and
no query is active (a query or an absent transform leaves the result
untouched). -/
theorem c3_transform_and_sort (obj : CommandResultItem) :
    format_table obj = format_table_spec obj ∧
    (shouldSortKeys obj = true ↔
      (obj.is_query_active = false ∧ obj.table_transformer = none)) ∧
    (∀ t, obj.table_transformer = some t → obj.is_query_active = false →
      tableResult obj = t obj.result) ∧
    (obj.is_query_active = true → tableResult obj = obj.result) ∧
    (obj.table_transformer = none → tableResult obj = obj.result) := by
  obtain ⟨r, tt, q⟩ := obj
  rcases tt with _ | t
  all_goals cases q
  all_goals refine ⟨rfl, ?_, ?_, ?_, ?_⟩
  all_goals simp [shouldSortKeys, tableResult]

/-- Witness for `c3_transform_and_sort` at an envelope carrying the
identity transform with no active query. -/
theorem c3_witness :
    format_table c3Env = format_table_spec c3Env ∧
    (shouldSortKeys c3Env = true ↔
      (c3Env.is_query_active = false ∧ c3Env.table_transformer = none)) ∧
    (∀ t, c3Env.table_transformer = some t → c3Env.is_query_active = false →
      tableResult c3Env = t c3Env.result) ∧
    (c3Env.is_query_active = true → tableResult c3Env = c3Env.result) ∧
    (c3Env.table_transformer = none → tableResult c3Env = c3Env.result) :=
  c3_transform_and_sort c3Env

end ClaimC3

section ClaimC8

/-- All-empty rows extract no columns. -/
theorem unionKeys_nil_of :
    ∀ (rows : List (List (String × Value))), (∀ row ∈ rows, row = []) →
      TableOutput.unionKeys rows = [] := by
  have general : ∀ (rows : List (List (String × Value))) (acc : List String),
      (∀ row ∈ rows, row = []) →
      rows.foldl (fun acc row =>
        acc ++ (row.map Prod.fst).filter (fun k => !(acc.contains k))) acc = acc := by
    intro rows
    induction rows with
    | nil => intro acc _; rfl
    | cons r rest ih =>
      intro acc h
      have hr : r = [] := h r (List.mem_cons_self r rest)
      subst hr
      simp only [List.foldl_cons, List.map_nil, List.filter_nil, List.append_nil]
      exact ih acc (fun row hrow => h row (List.mem_cons_of_mem _ hrow))
  intro rows h
  exact general rows [] h

/-- **C8.**  When the auto-table of a non-empty result list extracts
zero columns, `_format_table` fails with the single user-facing
formatting error — whose text mentions the `--query` option — rather
than returning output; and on every envelope whatsoever the strategy
either returns a complete string or fails with that same single
error (all internal failures are re-raised uniformly). -/
theorem c8_table_error_uniform (obj : CommandResultItem)
    (hne : tableResultList obj ≠ [])
    (hempty : ∀ row ∈ TableOutput.auto_table (shouldSortKeys obj) (tableResultList obj),
      row = []) :
    format_table obj = .error tableUnavailableMsg ∧
    (∃ pre post, tableUnavailableMsg = pre ++ "--query" ++ post) ∧
    (∀ env : CommandResultItem,
      (∃ s, format_table env = .ok s) ∨ format_table env = .error tableUnavailableMsg) := by
  refine ⟨?_, ⟨"Table output unavailable. Use the ",
      " option to specify an appropriate query. Use --debug for more info.", rfl⟩, ?_⟩
  · have hunion : TableOutput.unionKeys
        (TableOutput.auto_table (shouldSortKeys obj) (tableResultList obj)) = [] :=
      unionKeys_nil_of _ hempty
    have htab : TableOutput.tabulateSimple
        (TableOutput.auto_table (shouldSortKeys obj) (tableResultList obj)) = "\n" := by
      unfold TableOutput.tabulateSimple
      rw [hunion]
      rfl
    have hemp : (TableOutput.auto_table (shouldSortKeys obj) (tableResultList obj)).isEmpty
        = false := by
      unfold TableOutput.auto_table
      rcases hl : tableResultList obj with _ | ⟨v, vs⟩
      · exact absurd hl hne
      · rfl
    have hdump : TableOutput.dump (shouldSortKeys obj) (tableResultList obj)
        = .error "Unable to extract fields for table." := by
      unfold TableOutput.dump
      dsimp only
      rw [hemp]
      simp only [Bool.not_false, if_true, htab, if_pos rfl]
    unfold format_table
    rw [hdump]
  · intro env
    unfold format_table
    rcases TableOutput.dump (shouldSortKeys env) (tableResultList env) with e | s
    · exact Or.inr rfl
    · exact Or.inl ⟨s, rfl⟩

/-- Witness for `c8_table_error_uniform` at the reserved-key record. -/
theorem c8_witness :
    format_table c8Env = .error tableUnavailableMsg ∧
    (∃ pre post, tableUnavailableMsg = pre ++ "--query" ++ post) ∧
    (∀ env : CommandResultItem,
      (∃ s, format_table env = .ok s) ∨ format_table env = .error tableUnavailableMsg) :=
  c8_table_error_uniform c8Env
    (by
      intro h
      rw [show tableResultList c8Env = [Value.vdict [("id", Value.vstr "1")]] from rfl] at h
      exact List.noConfusion h)
    (by
      intro row hrow
      rw [show TableOutput.auto_table (shouldSortKeys c8Env) (tableResultList c8Env)
          = [[]] from rfl] at hrow
      exact List.mem_singleton.mp hrow)

end ClaimC8

section ClaimC4

/-- Every column retained from a dict record comes from a key outside
`SKIP_KEYS` whose value is truthy and not a list/dict/set, with the
first character of the key capitalized as the column header. -/
theorem auto_table_item_dict_mem (flag : Bool) (es : List (String × Value))
    {k : String} {v : Value}
    (hmem : (k, v) ∈ TableOutput.auto_table_item flag (.vdict es)) :
    ∃ k₀, k = TableOutput.capitalize_first_char k₀ ∧
      k₀ ∉ TableOutput.SKIP_KEYS ∧ assocFind es k₀ = some v ∧
      truthy v = true ∧ isList v = false ∧ isDict v = false ∧ isSet v = false := by
  unfold TableOutput.auto_table_item at hmem
  obtain ⟨k₀, hk₀, hf⟩ := List.mem_filterMap.mp hmem
  by_cases h1 : k₀ ∈ TableOutput.SKIP_KEYS
  · rw [if_pos h1] at hf
    exact absurd hf (by simp)
  · rw [if_neg h1] at hf
    rcases h2 : assocFind es k₀ with _ | v'
    all_goals rw [h2] at hf
    all_goals dsimp only [] at hf
    · exact absurd hf (by simp)
    · by_cases h3 : (truthy v' && !(isList v' || isDict v' || isSet v')) = true
      · rw [if_pos h3] at hf
        have hpair := Option.some_inj.mp hf
        have hk : TableOutput.capitalize_first_char k₀ = k := congrArg Prod.fst hpair
        have hv : v' = v := congrArg Prod.snd hpair
        subst hv
        simp only [Bool.and_eq_true, Bool.not_eq_true', Bool.or_eq_false_iff] at h3
        obtain ⟨ht, ⟨⟨hl, hd⟩, hs4⟩⟩ := h3
        exact ⟨k₀, hk.symm, h1, h2, ht, hl, hd, hs4⟩
      · rw [if_neg h3] at hf
        exact absurd hf (by simp)

/-- **C4.**  For a non-empty list result with at least one extractable
column, auto-table output is one header line, one separator line, and
exactly one data line per input record in input order; and every
retained column of a mapping record originates from a key outside
`id`/`type`/`etag` whose value is truthy (hence non-empty) and not a
list, mapping or set, with its first character capitalized as the
header. -/
theorem c4_auto_table (flag : Bool) (records : List Value)
    (hnil : records ≠ [])
    (hcols : TableOutput.unionKeys (TableOutput.auto_table flag records) ≠ []) :
    TableOutput.dump flag records
      = .ok (TableOutput.joinLines
          (TableOutput.headerLine (TableOutput.unionKeys (TableOutput.auto_table flag records))
            :: TableOutput.sepLine (TableOutput.unionKeys (TableOutput.auto_table flag records))
            :: records.map (fun r =>
                 TableOutput.rowLine
                   (TableOutput.unionKeys (TableOutput.auto_table flag records))
                   (TableOutput.auto_table_item flag r))) ++ "\n") ∧
    (∀ (es : List (String × Value)) (k : String) (v : Value),
      (k, v) ∈ TableOutput.auto_table_item flag (.vdict es) →
      ∃ k₀, k = TableOutput.capitalize_first_char k₀ ∧
        k₀ ∉ TableOutput.SKIP_KEYS ∧ assocFind es k₀ = some v ∧
        truthy v = true ∧ isList v = false ∧ isDict v = false ∧ isSet v = false) ∧
    (∀ (es : List (String × Value)) (k : String) (v : Value),
      (k, v) ∈ TableOutput.auto_table_item flag (.vodict es) →
      ∃ k₀, k = TableOutput.capitalize_first_char k₀ ∧
        k₀ ∉ TableOutput.SKIP_KEYS ∧ assocFind es k₀ = some v ∧
        truthy v = true ∧ isList v = false ∧ isDict v = false ∧ isSet v = false) ∧
    (∀ v, isEmptyVal v = true → truthy v = false) := by
  refine ⟨?_, fun es k v hmem => auto_table_item_dict_mem flag es hmem,
    fun es k v hmem => auto_table_item_dict_mem flag es
      (by rw [show TableOutput.auto_table_item flag (.vdict es)
            = TableOutput.auto_table_item flag (.vodict es) from rfl]; exact hmem), ?_⟩
  · rcases records with _ | ⟨r₀, rest⟩
    · exact absurd rfl hnil
    · have hisEmpty : (TableOutput.unionKeys
          (TableOutput.auto_table flag (r₀ :: rest))).isEmpty = false := by
        rcases h : TableOutput.unionKeys (TableOutput.auto_table flag (r₀ :: rest))
            with _ | ⟨x, xs⟩
        · exact absurd h hcols
        · rfl
      have htab : TableOutput.tabulateSimple (TableOutput.auto_table flag (r₀ :: rest))
          = TableOutput.joinLines
              (TableOutput.headerLine
                  (TableOutput.unionKeys (TableOutput.auto_table flag (r₀ :: rest)))
                :: TableOutput.sepLine
                  (TableOutput.unionKeys (TableOutput.auto_table flag (r₀ :: rest)))
                :: (r₀ :: rest).map (fun r =>
                     TableOutput.rowLine
                       (TableOutput.unionKeys (TableOutput.auto_table flag (r₀ :: rest)))
                       (TableOutput.auto_table_item flag r))) := by
        unfold TableOutput.tabulateSimple
        dsimp only
        rw [if_neg (by simp [hisEmpty])]
        rw [show TableOutput.auto_table flag (r₀ :: rest)
            = (r₀ :: rest).map (TableOutput.auto_table_item flag) from rfl, List.map_map]
        rfl
      have hstrne : TableOutput.joinLines
          (TableOutput.headerLine
              (TableOutput.unionKeys (TableOutput.auto_table flag (r₀ :: rest)))
            :: TableOutput.sepLine
              (TableOutput.unionKeys (TableOutput.auto_table flag (r₀ :: rest)))
            :: (r₀ :: rest).map (fun r =>
                 TableOutput.rowLine
                   (TableOutput.unionKeys (TableOutput.auto_table flag (r₀ :: rest)))
                   (TableOutput.auto_table_item flag r))) ≠ "\n" := by
        rw [List.map_cons]
        exact joinLines_ne_newline _ _ _ _
      unfold TableOutput.dump
      dsimp only
      rw [show (TableOutput.auto_table flag (r₀ :: rest)).isEmpty = false from rfl]
      simp only [Bool.not_false, if_true]
      rw [htab, if_neg hstrne]
  · intro v hv
    cases v with
    | vnone => rfl
    | vbool b => exact Bool.noConfusion hv
    | vint n => exact Bool.noConfusion hv
    | vstr s =>
      have hs : s = "" := by simpa [isEmptyVal] using hv
      subst hs
      rfl
    | vlist xs =>
      show (!xs.isEmpty) = false
      rw [show xs.isEmpty = true from hv]
      rfl
    | vdict es =>
      show (!es.isEmpty) = false
      rw [show es.isEmpty = true from hv]
      rfl
    | vodict es =>
      show (!es.isEmpty) = false
      rw [show es.isEmpty = true from hv]
      rfl
    | vset xs =>
      show (!xs.isEmpty) = false
      rw [show xs.isEmpty = true from hv]
      rfl

/-- Witness for `c4_auto_table` on the example record list, with key
sorting on. -/
theorem c4_witness :
    TableOutput.dump true c4Records
      = .ok (TableOutput.joinLines
          (TableOutput.headerLine (TableOutput.unionKeys (TableOutput.auto_table true c4Records))
            :: TableOutput.sepLine (TableOutput.unionKeys (TableOutput.auto_table true c4Records))
            :: c4Records.map (fun r =>
                 TableOutput.rowLine
                   (TableOutput.unionKeys (TableOutput.auto_table true c4Records))
                   (TableOutput.auto_table_item true r))) ++ "\n") ∧
    (∀ (es : List (String × Value)) (k : String) (v : Value),
      (k, v) ∈ TableOutput.auto_table_item true (.vdict es) →
      ∃ k₀, k = TableOutput.capitalize_first_char k₀ ∧
        k₀ ∉ TableOutput.SKIP_KEYS ∧ assocFind es k₀ = some v ∧
        truthy v = true ∧ isList v = false ∧ isDict v = false ∧ isSet v = false) ∧
    (∀ (es : List (String × Value)) (k : String) (v : Value),
      (k, v) ∈ TableOutput.auto_table_item true (.vodict es) →
      ∃ k₀, k = TableOutput.capitalize_first_char k₀ ∧
        k₀ ∉ TableOutput.SKIP_KEYS ∧ assocFind es k₀ = some v ∧
        truthy v = true ∧ isList v = false ∧ isDict v = false ∧ isSet v = false) ∧
    (∀ v, isEmptyVal v = true → truthy v = false) :=
  c4_auto_table true c4Records
    (by
      intro h
      exact List.noConfusion h)
    (by
      intro h
      rw [show TableOutput.unionKeys (TableOutput.auto_table true c4Records)
          = ["Name"] from rfl] at h
      exact List.noConfusion h)

end ClaimC4

section ClaimC7

theorem assignFrom_lookup :
    ∀ (l : List String) (s i : Nat) (h : i < l.length), l.Nodup →
      (assignFrom s l).lookup (l.get ⟨i, h⟩) = some (s + i) := by
  intro l
  induction l with
  | nil =>
    intro s i h _
    simp at h
  | cons g gs ih =>
    intro s i h hnodup
    rcases i with _ | j
    · show (assignFrom s (g :: gs)).lookup g = some (s + 0)
      simp [assignFrom, List.lookup]
    · have hlt : j < gs.length := by simpa using h
      have hget : (g :: gs).get ⟨j + 1, h⟩ = gs.get ⟨j, hlt⟩ := rfl
      rw [hget]
      have hg : g ≠ gs.get ⟨j, hlt⟩ := by
        intro hcontra
        have hmem : gs.get ⟨j, hlt⟩ ∈ gs := List.get_mem gs j hlt
        rw [← hcontra] at hmem
        exact (List.nodup_cons.mp hnodup).1 hmem
      have hbeq : (gs.get ⟨j, hlt⟩ == g) = false :=
        beq_eq_false_iff_ne.mpr (Ne.symm hg)
      rw [show assignFrom s (g :: gs) = (g, s) :: assignFrom (s + 1) gs from rfl,
        List.lookup, hbeq]
      show List.lookup (gs.get ⟨j, hlt⟩) (assignFrom (s + 1) gs) = some (s + (j + 1))
      rw [ih (s + 1) j hlt (List.nodup_cons.mp hnodup).2]
      congr 1
      omega

theorem strLt_of_le_ne {a b : String} (hle : strLe a b = true) (hne : a ≠ b) :
    strLt a b = true := by
  have hba : lexLt b.data a.data = false := by
    simpa [strLe, strLt] using hle
  cases hab : lexLt a.data b.data
  · exfalso
    apply hne
    obtain ⟨da⟩ := a
    obtain ⟨db⟩ := b
    exact congrArg String.mk (lexLt_eq_of_not hab hba)
  · exact hab

theorem otherGroups_nodup (gl : List String) : (otherGroups gl).Nodup :=
  List.Nodup.filter _
    ((pySorted_perm strLe gl.dedup).nodup_iff.mpr (List.nodup_dedup gl))

theorem otherGroups_sorted (gl : List String) :
    List.Pairwise (fun a b => strLt a b = true) (otherGroups gl) := by
  have hle : List.Pairwise (fun a b => strLe a b = true) (sortedDistinct gl) :=
    pySorted_pairwise strLe_total (fun x y z => strLe_trans) gl.dedup
  have hnd : List.Pairwise (fun a b : String => a ≠ b) (sortedDistinct gl) :=
    (pySorted_perm strLe gl.dedup).nodup_iff.mpr (List.nodup_dedup gl)
  have hcomb := (hle.and hnd).imp
    (fun hab => strLt_of_le_ne hab.1 hab.2)
  exact hcomb.filter _

theorem rank_other (gl : List String) (i : Nat) (h : i < (otherGroups gl).length) :
    groupPriorityNat gl (some ((otherGroups gl).get ⟨i, h⟩)) = 2 + i := by
  have hg : (otherGroups gl).get ⟨i, h⟩ ≠ "Global Arguments" := by
    have hmem := List.get_mem (otherGroups gl) i h
    have := (List.mem_filter.mp hmem).2
    simpa using this
  unfold groupPriorityNat
  dsimp only
  rw [if_neg hg]
  unfold registryOthers
  rw [assignFrom_lookup (otherGroups gl) 2 i h (otherGroups_nodup gl)]

theorem parameterKey_data (gl : List String) (p : HelpParameter)
    (hp : groupPriorityNat gl p.group_name < 10 ^ 6) :
    (parameterKey gl p).data
      = padDigits 6 (groupPriorityNat gl p.group_name)
        ++ ((if p.required then "False" else "True").data ++ p.name.data) := by
  unfold parameterKey get_group_priority
  rw [String.data_append, String.data_append, pad6_data hp, List.append_assoc]

theorem lexLt_FT (u v : List Char) :
    lexLt ("False".data ++ u) ("True".data ++ v) = true := by
  show lexLt ('F' :: ("alse".data ++ u)) ('T' :: ("rue".data ++ v)) = true
  rw [lexLt_cons, if_pos (by decide)]

theorem lexLt_TF (u v : List Char) :
    lexLt ("True".data ++ u) ("False".data ++ v) = false := by
  show lexLt ('T' :: ("rue".data ++ u)) ('F' :: ("alse".data ++ v)) = false
  rw [lexLt_cons, if_neg (by decide), if_pos (by decide)]

/-- The bool-string-plus-name suffix of the composite key compares
exactly as (required-before-optional, name). -/
theorem middle_lt_iff (p q : HelpParameter) :
    lexLt ((if p.required then "False" else "True").data ++ p.name.data)
          ((if q.required then "False" else "True").data ++ q.name.data) = true ↔
      ((p.required = true ∧ q.required = false) ∨
        (p.required = q.required ∧ strLt p.name q.name = true)) := by
  cases hpr : p.required <;> cases hqr : q.required <;>
    simp only [if_true, if_false, Bool.false_eq_true, Bool.true_eq_false]
  · rw [lexLt_append_iff rfl]
    simp [lexLt_irrefl, strLt]
  · rw [lexLt_TF]
    simp
  · rw [lexLt_FT]
    simp
  · rw [lexLt_append_iff rfl]
    simp [lexLt_irrefl, strLt]

/-- **C7.**  The rendered argument order is by the composite key
(zero-padded group rank, required-before-optional, name): comparing
two parameters' key strings is exactly the lexicographic comparison of
the triple; the default (ungrouped) rank is 0, `Global Arguments` is
1000, and the remaining distinct group names are ranked alphabetically
with consecutive integers from 2. -/
theorem c7_parameter_order (gl : List String) (p q : HelpParameter)
    (hp : groupPriorityNat gl p.group_name < 10 ^ 6)
    (hq : groupPriorityNat gl q.group_name < 10 ^ 6) :
    (strLt (parameterKey gl p) (parameterKey gl q) = true ↔
      (groupPriorityNat gl p.group_name < groupPriorityNat gl q.group_name ∨
        (groupPriorityNat gl p.group_name = groupPriorityNat gl q.group_name ∧
          ((p.required = true ∧ q.required = false) ∨
            (p.required = q.required ∧ strLt p.name q.name = true))))) ∧
    groupPriorityNat gl none = 0 ∧
    groupPriorityNat gl (some "Global Arguments") = 1000 ∧
    (∀ (i : Nat) (h : i < (otherGroups gl).length),
      groupPriorityNat gl (some ((otherGroups gl).get ⟨i, h⟩)) = 2 + i) ∧
    List.Pairwise (fun a b => strLt a b = true) (otherGroups gl) := by
  refine ⟨?_, rfl, rfl, fun i h => rank_other gl i h, otherGroups_sorted gl⟩
  show lexLt (parameterKey gl p).data (parameterKey gl q).data = true ↔ _
  rw [parameterKey_data gl p hp, parameterKey_data gl q hq]
  rw [lexLt_append_iff (by rw [padDigits_length, padDigits_length])]
  rw [padDigits_lt_iff 6 _ _ hp hq]
  constructor
  · rintro (h | ⟨heq, hmid⟩)
    · exact Or.inl h
    · exact Or.inr ⟨padDigits_inj hp hq heq, (middle_lt_iff p q).mp hmid⟩
  · rintro (h | ⟨heq, hmid⟩)
    · exact Or.inl h
    · exact Or.inr ⟨by rw [heq], (middle_lt_iff p q).mpr hmid⟩

/-- Witness for `c7_parameter_order` with the group list
`["Networking"]` and the two fixture parameters. -/
theorem c7_witness :
    (strLt (parameterKey ["Networking"] c7P) (parameterKey ["Networking"] c7Q) = true ↔
      (groupPriorityNat ["Networking"] c7P.group_name
          < groupPriorityNat ["Networking"] c7Q.group_name ∨
        (groupPriorityNat ["Networking"] c7P.group_name
            = groupPriorityNat ["Networking"] c7Q.group_name ∧
          ((c7P.required = true ∧ c7Q.required = false) ∨
            (c7P.required = c7Q.required ∧ strLt c7P.name c7Q.name = true))))) ∧
    groupPriorityNat ["Networking"] none = 0 ∧
    groupPriorityNat ["Networking"] (some "Global Arguments") = 1000 ∧
    (∀ (i : Nat) (h : i < (otherGroups ["Networking"]).length),
      groupPriorityNat ["Networking"] (some ((otherGroups ["Networking"]).get ⟨i, h⟩))
        = 2 + i) ∧
    List.Pairwise (fun a b => strLt a b = true) (otherGroups ["Networking"]) :=
  c7_parameter_order ["Networking"] c7P c7Q (by decide) (by decide)

end ClaimC7

